import Mathlib

/-!
Verification of the AutoEq-to-FiiO converter (`src/autoeq_to_fiio.py`).

This file gives a shallow embedding of the EQ parsing / normalization /
serialization pipeline of the script and proves the frozen claims about it.

Modelling conventions:
* Python strings are modelled as `List Char` (`Str`).  All string primitives
  used by the script (`lower`, `upper`, `strip`, `split`, `splitlines`,
  substring test, `isalpha`, `isdigit`, `replace('.','',1)`) are re-implemented
  here as structurally recursive functions so that concrete runs reduce in the
  kernel.  Case mapping is ASCII (the script's data is ASCII).
* Python floats are modelled as exact decimals: a `Dec` is a pair
  `num / 10 ^ exp`.  `float(s)` on a plain decimal literal is `parseFloatChars`
  (exponent / inf / nan / underscore literal forms are outside the model; none
  of the script's regex-extracted fields can contain them), `str(f)` is
  `decStr` (Python's shortest-round-trip repr of a float obtained from a short
  decimal literal is exactly that literal with trailing zeros stripped and a
  mandatory fractional digit; e-notation for huge/tiny values is outside the
  model), and `int(f)` is `decTrunc` (truncation toward zero).
* The `csv` module is modelled at the comma-separated-row level: dialect
  sniffing (which yields the comma dialect on all the script's inputs, either
  by sniffing or by the `excel` fallback) and quoting are abstracted away,
  a row being the comma-split of one source line.
* The XML document is modelled by its element structure (`FiiODoc`);
  pretty-printing is abstracted away, since every claim is about the emitted
  structure and parameter values.
-/

namespace AutoEqFiio

/-- Python strings, modelled as explicit character lists. -/
abbrev Str := List Char

/-- Characters treated as whitespace by `str.strip` / `float` (ASCII range). -/
def isSpaceChar (c : Char) : Bool :=
  c = ' ' || c = '\t' || c = '\n' || c = '\r' || c = '\x0b' || c = '\x0c'

/-- ASCII lower-casing of one character, modelling `str.lower`. -/
def lowerChar (c : Char) : Char :=
  if 'A' ≤ c && c ≤ 'Z' then Char.ofNat (c.toNat + 32) else c

/-- ASCII upper-casing of one character, modelling `str.upper`. -/
def upperChar (c : Char) : Char :=
  if 'a' ≤ c && c ≤ 'z' then Char.ofNat (c.toNat - 32) else c

/-- `s.lower()`. -/
def lowerStr (s : Str) : Str := s.map lowerChar

/-- `s.upper()`. -/
def upperStr (s : Str) : Str := s.map upperChar

/-- `s.strip()`: drop whitespace from both ends. -/
def stripStr (s : Str) : Str :=
  ((s.dropWhile isSpaceChar).reverse.dropWhile isSpaceChar).reverse

/-- `s.split(sep)` for a one-character separator (the script only splits on
`":"`, `" "` and, for CSV rows, `","`).  Like Python, the result is never
empty and empty fields are kept. -/
def splitOnChar (sep : Char) : Str → List Str
  | [] => [[]]
  | c :: r =>
    let rest := splitOnChar sep r
    if c = sep then [] :: rest
    else
      match rest with
      | [] => [[c]]
      | g :: gs => (c :: g) :: gs

/-- Does `pat` occur at the start of `s`? -/
def startsWith : Str → Str → Bool
  | [], _ => true
  | _ :: _, [] => false
  | p :: ps, c :: cs => p = c && startsWith ps cs

/-- Python's `pat in s` substring test. -/
def containsSub (pat : Str) : Str → Bool
  | [] => startsWith pat []
  | c :: r => startsWith pat (c :: r) || containsSub pat r

/-- `s.splitlines()`: split on `\n`, `\r\n` or `\r`, no trailing empty line. -/
def splitlinesAux : Str → Str → List Str
  | [], acc => if acc.isEmpty then [] else [acc.reverse]
  | '\n' :: r, acc => acc.reverse :: splitlinesAux r []
  | '\r' :: '\n' :: r, acc => acc.reverse :: splitlinesAux r []
  | '\r' :: r, acc => acc.reverse :: splitlinesAux r []
  | c :: r, acc => splitlinesAux r (c :: acc)

/-- `s.splitlines()`. -/
def splitlines (s : Str) : List Str := splitlinesAux s []

/-- `s.isalpha()`: non-empty and all alphabetic. -/
def pyIsAlpha (s : Str) : Bool := !s.isEmpty && s.all Char.isAlpha

/-- `s.isdigit()`: non-empty and all decimal digits. -/
def pyIsDigit (s : Str) : Bool := !s.isEmpty && s.all Char.isDigit

/-- `s.replace(".", "", 1)`: delete the first `'.'`, if any. -/
def removeFirstDot : Str → Str
  | [] => []
  | c :: r => if c = '.' then r else c :: removeFirstDot r

/-- Decimal digits of `n`, most significant first (`"0"` for zero); fuelled
recursion so that the kernel can evaluate it. -/
def natDigitsAux : Nat → Nat → Str
  | 0, _ => []
  | fuel + 1, n => if n = 0 then [] else natDigitsAux fuel (n / 10) ++ [Char.ofNat (n % 10 + 48)]

/-- Decimal representation of a natural number, modelling `str(n)`. -/
def natDigits (n : Nat) : Str :=
  if n = 0 then ['0'] else natDigitsAux (n + 1) n

/-- Decimal representation of an integer, modelling `str(i)` for Python ints. -/
def intStr (i : Int) : Str :=
  if i < 0 then '-' :: natDigits i.natAbs else natDigits i.natAbs

/-- Exact decimal number: the value `num / 10 ^ exp`.  This models the Python
floats the script manipulates (all obtained from short decimal literals). -/
structure Dec where
  num : Int
  exp : Nat
  deriving Repr, DecidableEq

/-- The rational value of a `Dec`. -/
def Dec.val (d : Dec) : ℚ := (d.num : ℚ) / (10 : ℚ) ^ d.exp

/-- Numbers `n` such that the digit list `ds` continues the literal `n…`. -/
def digitsVal (acc : Nat) : Str → Nat
  | [] => acc
  | c :: r => digitsVal (acc * 10 + (c.toNat - 48)) r

/-- Parse an unsigned decimal literal `digits [. digits]` (at least one digit
overall, nothing else), as accepted by Python's `float`. -/
def parseUnsignedDec (s : Str) : Option Dec :=
  let ip := s.takeWhile Char.isDigit
  let r := s.dropWhile Char.isDigit
  match r with
  | [] => if ip.isEmpty then none else some ⟨digitsVal 0 ip, 0⟩
  | '.' :: r2 =>
    let fp := r2.takeWhile Char.isDigit
    let r3 := r2.dropWhile Char.isDigit
    if !r3.isEmpty then none
    else if ip.isEmpty && fp.isEmpty then none
    else some ⟨digitsVal 0 (ip ++ fp), fp.length⟩
  | _ => none

/-- `float(s)` on a plain decimal literal: optional surrounding whitespace,
optional sign, digits with at most one point.  `none` models `ValueError`. -/
def parseFloatChars (s : Str) : Option Dec :=
  match stripStr s with
  | '+' :: r => parseUnsignedDec r
  | '-' :: r => (parseUnsignedDec r).map fun d => ⟨-d.num, d.exp⟩
  | r => parseUnsignedDec r

/-- Strip trailing fractional zero digits (`3.20` and `3.2` denote one float),
recursing on the exponent. -/
def decNormAux : Nat → Int → Dec
  | 0, n => ⟨n, 0⟩
  | e + 1, n => if n % 10 = 0 then decNormAux e (n / 10) else ⟨n, e + 1⟩

/-- Canonical form of a `Dec`: trailing fractional zeros stripped. -/
def decNorm (d : Dec) : Dec := decNormAux d.exp d.num

/-- Zero-padded digit block of width `w`. -/
def padDigits (m w : Nat) : Str :=
  let ds := natDigits m
  List.replicate (w - ds.length) '0' ++ ds

/-- `str(f)` for a float obtained from a short decimal literal: the shortest
decimal representation, always with at least one fractional digit. -/
def decStr (d : Dec) : Str :=
  let d := decNorm d
  let sign : Str := if d.num < 0 then ['-'] else []
  let n := d.num.natAbs
  if d.exp = 0 then sign ++ natDigits n ++ ['.', '0']
  else sign ++ natDigits (n / 10 ^ d.exp) ++ ['.'] ++ padDigits (n % 10 ^ d.exp) d.exp

/-- `int(f)`: truncation toward zero. -/
def decTrunc (d : Dec) : Int := d.num.tdiv ((10 : Int) ^ d.exp)

/-! ## Filter type registry -/

/-- `FILTER_TYPE_MAP`: standard AutoEq filter names to FiiO numeric codes. -/
def FILTER_TYPE_MAP (s : Str) : Option Str :=
  if s = "Peaking".toList then some "0".toList
  else if s = "Low Shelf".toList then some "1".toList
  else if s = "High Shelf".toList then some "2".toList
  else none

/-- `TEXT_FORMAT_TYPE_MAP`: text-format abbreviations to standard names. -/
def TEXT_FORMAT_TYPE_MAP (s : Str) : Option Str :=
  if s = "LSC".toList then some "Low Shelf".toList
  else if s = "HSC".toList then some "High Shelf".toList
  else if s = "PK".toList then some "Peaking".toList
  else none

/-! ## The text filter regex

`TEXT_FILTER_REGEX` is
`Filter\s+\d+:\s+ON\s+(\w+)\s+Fc\s+([\d.]+)\s+Hz\s+Gain\s+([-\d.]+)\s+dB\s+Q\s+([\d.]+)`
with `re.IGNORECASE`, used with `re.search`.  Every character class in the
pattern is disjoint from the class that follows it, so greedy maximal-munch
matching with no backtracking computes exactly the Python match; `search`
tries each start position from the left. -/

/-- Consume `pat` case-insensitively at the head of `s`. -/
def matchCI (pat : Str) (s : Str) : Option Str :=
  match pat, s with
  | [], rest => some rest
  | _ :: _, [] => none
  | p :: ps, c :: cs => if lowerChar p = lowerChar c then matchCI ps cs else none

/-- Consume one-or-more characters satisfying `f` (maximal munch). -/
def dropPlus (f : Char → Bool) : Str → Option Str
  | [] => none
  | c :: r => if f c then some (r.dropWhile f) else none

/-- Capture one-or-more characters satisfying `f` (maximal munch). -/
def takePlus (f : Char → Bool) : Str → Option (Str × Str)
  | [] => none
  | c :: r => if f c then some (c :: r.takeWhile f, r.dropWhile f) else none

/-- `\w`: word character. -/
def isWordChar (c : Char) : Bool := c.isAlphanum || c = '_'

/-- `[\d.]`: unsigned decimal character. -/
def isUDecChar (c : Char) : Bool := c.isDigit || c = '.'

/-- `[-\d.]`: signed decimal character. -/
def isSDecChar (c : Char) : Bool := c = '-' || c.isDigit || c = '.'

/-- Consume a literal `':'`. -/
def afterColon : Str → Option Str
  | ':' :: r => some r
  | _ => none

/-- Consume `Filter\s+\d+:\s+ON\s+`. -/
def matchFilterHead (s : Str) : Option Str :=
  (matchCI "Filter".toList s).bind fun a =>
  (dropPlus isSpaceChar a).bind fun b =>
  (dropPlus Char.isDigit b).bind fun c =>
  (afterColon c).bind fun d =>
  (dropPlus isSpaceChar d).bind fun e =>
  (matchCI "ON".toList e).bind fun f =>
  dropPlus isSpaceChar f

/-- Consume `\s+Fc\s+`. -/
def matchFc (s : Str) : Option Str :=
  (dropPlus isSpaceChar s).bind fun a =>
  (matchCI "Fc".toList a).bind fun b =>
  dropPlus isSpaceChar b

/-- Consume `\s+Hz\s+Gain\s+`. -/
def matchHzGain (s : Str) : Option Str :=
  (dropPlus isSpaceChar s).bind fun a =>
  (matchCI "Hz".toList a).bind fun b =>
  (dropPlus isSpaceChar b).bind fun c =>
  (matchCI "Gain".toList c).bind fun d =>
  dropPlus isSpaceChar d

/-- Consume `\s+dB\s+Q\s+`. -/
def matchDbQ (s : Str) : Option Str :=
  (dropPlus isSpaceChar s).bind fun a =>
  (matchCI "dB".toList a).bind fun b =>
  (dropPlus isSpaceChar b).bind fun c =>
  (matchCI "Q".toList c).bind fun d =>
  dropPlus isSpaceChar d

/-- Match the whole filter pattern at the start of `s`, returning the four
captured groups (type abbreviation, frequency, gain, Q). -/
def matchTextFilterAt (s : Str) : Option (Str × Str × Str × Str) :=
  (matchFilterHead s).bind fun s1 =>
  (takePlus isWordChar s1).bind fun p1 =>
  (matchFc p1.2).bind fun s2 =>
  (takePlus isUDecChar s2).bind fun p2 =>
  (matchHzGain p2.2).bind fun s3 =>
  (takePlus isSDecChar s3).bind fun p3 =>
  (matchDbQ p3.2).bind fun s4 =>
  (takePlus isUDecChar s4).map fun p4 =>
  (p1.1, p2.1, p3.1, p4.1)

/-- `TEXT_FILTER_REGEX.search(line)`: leftmost match anywhere in the line. -/
def searchTextFilter : Str → Option (Str × Str × Str × Str)
  | [] => none
  | c :: r =>
    match matchTextFilterAt (c :: r) with
    | some g => some g
    | none => searchTextFilter r

/-! ## Bands and the two extraction paths -/

/-- One normalized EQ band: the four string-valued fields of the band
dictionary built by `parse_eq_data`. -/
structure Band where
  type : Str
  freq : Str
  gain : Str
  q : Str
  deriving Repr, DecidableEq, Inhabited

/-- Build the band dictionary from a type code and the three raw numeric
fields: `freq = str(int(float(freq_str)))`, `gain = str(float(gain_str))`,
`q = str(float(q_str))`; any conversion failure (`ValueError`) drops the
band. -/
def mkBand (t freqS gainS qS : Str) : Option Band :=
  match parseFloatChars freqS, parseFloatChars gainS, parseFloatChars qS with
  | some f, some g, some qv => some ⟨t, intStr (decTrunc f), decStr g, decStr qv⟩
  | _, _, _ => none

/-- Process one line of a text-format document: regex search, abbreviation
lookup (unknown abbreviation dropped), code lookup, numeric conversion
(failure dropped). -/
def parseTextLine (line : Str) : Option Band :=
  match searchTextFilter line with
  | none => none
  | some (abbr, freqS, gainS, qS) =>
    match TEXT_FORMAT_TYPE_MAP (upperStr abbr) with
    | none => none
    | some stdName =>
      match FILTER_TYPE_MAP stdName with
      | none => none
      | some t => mkBand t freqS gainS qS

/-- Bands extracted from a text-format document. -/
def textBands (lines : List Str) : List Band := lines.filterMap parseTextLine

/-- Preamp candidate of one line: the line must contain `preamp:`
case-insensitively, and then
`float(line.split(":")[1].strip().split(" ")[0])` must succeed. -/
def preampOfLine (line : Str) : Option Dec :=
  if containsSub "preamp:".toList (lowerStr line) then
    parseFloatChars ((splitOnChar ' ' (stripStr ((splitOnChar ':' line).getD 1 []))).headD [])
  else none

/-- The resolved preamp: first line with a successful candidate wins, default
`0.0` when no line yields a value. -/
def preampOfLines (lines : List Str) : Dec :=
  (lines.findSome? preampOfLine).getD ⟨0, 0⟩

/-! ## CSV path -/

/-- CSV rows of the document: one row per source line, comma-split; an empty
line yields the empty row (which the reader skips). -/
def csvRows (content : Str) : List (List Str) :=
  (splitlines content).map fun l => if l.isEmpty then [] else splitOnChar ',' l

/-- `expected_headers` of the source. -/
def expected_headers : List Str :=
  ["Filter Type".toList, "Freq".toList, "Q".toList, "Gain".toList]

/-- The source's header test: every expected keyword occurs (stripped,
lower-cased, as a whole cell) among the row's cells, or one of the first four
cells is purely alphabetic. -/
def csvIsHeader (header : List Str) : Bool :=
  (expected_headers.all fun h =>
    (header.map fun eh => lowerStr (stripStr eh)).contains (lowerStr (stripStr h)))
  || (header.take 4).any pyIsAlpha

/-- Process one CSV data row: rows shorter than 4 cells are skipped; cell 0 is
the filter-type name; if unknown and numeric-looking, the row is reinterpreted
as header-less `freq,q,gain` data with Peaking assumed; numeric conversion
failure drops the row. -/
def csvRowToBand (row : List Str) : Option Band :=
  if row.length < 4 then none
  else
    let ftn := stripStr (row.getD 0 [])
    match FILTER_TYPE_MAP ftn with
    | some t => mkBand t (stripStr (row.getD 1 [])) (stripStr (row.getD 3 [])) (stripStr (row.getD 2 []))
    | none =>
      if pyIsDigit (removeFirstDot ftn) && decide (3 ≤ row.length) then
        mkBand "0".toList ftn (stripStr (row.getD 2 [])) (stripStr (row.getD 1 []))
      else none

/-- Bands extracted from a CSV-format document: the first row is dropped
exactly when it looks like a header, otherwise the reader is rewound and the
first row is parsed as data; an empty document yields no bands. -/
def csvBands (rows : List (List Str)) : List Band :=
  match rows with
  | [] => []
  | header :: rest =>
    if csvIsHeader header then rest.filterMap csvRowToBand
    else (header :: rest).filterMap csvRowToBand

/-! ## parse_eq_data -/

/-- Whole-document format detection: some line matches the text filter regex. -/
def isTextFormat (lines : List Str) : Bool :=
  lines.any fun l => (searchTextFilter l).isSome

/-- The band list extracted from a document; the text/CSV dispatch is a single
whole-document decision. -/
def eqBandsOf (content : Str) : List Band :=
  let lines := splitlines (stripStr content)
  if isTextFormat lines then textBands lines
  else csvBands (csvRows content)

/-- `parse_eq_data`: `none` models the `None, None` failure returns (empty
input, empty CSV, or zero surviving bands — the `StopIteration` return on a
zero-row CSV also yields zero bands, hence the same `none`). -/
def parse_eq_data (eq_content : Str) : Option (List Band × Dec) :=
  if eq_content.isEmpty then none
  else
    let eq_bands := eqBandsOf eq_content
    if eq_bands.isEmpty then none
    else some (eq_bands, preampOfLines (splitlines (stripStr eq_content)))

/-! ## XML serializer -/

/-- One `<eq index=…>` element: its index attribute and its `<param>`
children in emission order. -/
structure EqEntry where
  index : Str
  params : List (Str × Str)
  deriving Repr, DecidableEq, Inhabited

/-- The serialized FiiO DSP document, by element structure. -/
structure FiiODoc where
  model : Str
  version : Str
  masterGain : Str
  eqList : List EqEntry
  styleName : Str
  description : Str
  deriving Repr, DecidableEq

/-- The four `<param>` children of a band's `<eq>` element, in the band
dictionary's insertion order. -/
def bandParams (b : Band) : List (Str × Str) :=
  [("type".toList, b.type), ("freq".toList, b.freq), ("gain".toList, b.gain), ("q".toList, b.q)]

/-- The element tree built from the (already truncated) band list: root
attributes, master gain emitted as `str(preamp_value)`, one `<eq>` element per
band with 0-based emission-order indices from `enumerate`, then the style and
description elements. -/
def fiioDocBody (bands : List Band) (style_name : Str) (preamp_value : Dec)
    (dsp_model_name : Str) : FiiODoc :=
  { model := dsp_model_name
    version := "0.0.1".toList
    masterGain := decStr preamp_value
    eqList := bands.enum.map fun p => ⟨natDigits p.1, bandParams p.2⟩
    styleName := style_name
    description := "Converted from AutoEq".toList }

/-- `create_fiio_xml`: truncate to at most 10 bands (a warning, not an
error), then build the document. -/
def create_fiio_xml (eq_bands : List Band) (style_name : Str) (preamp_value : Dec)
    (dsp_model_name : Str) : FiiODoc :=
  let bands := if eq_bands.length > 10 then eq_bands.take 10 else eq_bands
  fiioDocBody bands style_name preamp_value dsp_model_name

/-- Read back the value of the `<param>` child named `name` of an `<eq>`
element. -/
def readParam (e : EqEntry) (name : Str) : Option Str :=
  (e.params.find? fun p => p.1 = name).map Prod.snd

/-- Modelled from the spec: the serializer variant carrying the boolean gain
policy `usePreampGain`, which is absent from the snapshot under `src/` (its
`create_fiio_xml` has no such parameter and always emits `str(preamp_value)`).
Per the spec, the master-gain parameter's value is `preampDb` formatted as its
default decimal string if the gain policy is true, else the literal `"0"`;
everything else is as in `create_fiio_xml`. -/
def create_fiio_xml_policy (eq_bands : List Band) (style_name : Str) (preamp_value : Dec)
    (dsp_model_name : Str) (usePreampGain : Bool) : FiiODoc :=
  { create_fiio_xml eq_bands style_name preamp_value dsp_model_name with
    masterGain := if usePreampGain then decStr preamp_value else "0".toList }

/-! ## A heap model for the frame claim

`create_fiio_xml` receives its band list by reference.  To state that the
call leaves the caller's list (and every band value in it) unchanged, the
list arguments are modelled as addresses into a small heap of list objects;
Python list slicing allocates a fresh object, and assigning to the local
name `eq_bands` rebinds the name without touching the callee's argument
object.  `len`, `enumerate` and `band.items()` are reads. -/

/-- A heap of Python list-of-band objects; an address is an index. -/
structure PyHeap where
  lists : List (List Band)
  deriving Repr, DecidableEq

/-- Dereference an address. -/
def PyHeap.read (h : PyHeap) (a : Nat) : List Band := h.lists.getD a []

/-- Allocate a fresh list object, returning the new heap and its address. -/
def PyHeap.alloc (h : PyHeap) (v : List Band) : PyHeap × Nat :=
  (⟨h.lists ++ [v]⟩, h.lists.length)

/-- `create_fiio_xml` acting on the heap: `a` is the caller's list.  In the
truncating branch `eq_bands[:max_bands]` allocates a fresh object and the
local name is rebound to it; the document is then built from reads only. -/
def create_fiio_xml_heap (h : PyHeap) (a : Nat) (style_name : Str) (preamp_value : Dec)
    (dsp_model_name : Str) : PyHeap × FiiODoc :=
  let eq_bands := h.read a
  if eq_bands.length > 10 then
    let pa := h.alloc (eq_bands.take 10)
    (pa.1, fiioDocBody (pa.1.read pa.2) style_name preamp_value dsp_model_name)
  else
    (h, fiioDocBody eq_bands style_name preamp_value dsp_model_name)

/-! ## Claim-words definition for C8

The claim states the header decision in terms of the FIRST FOUR columns
only, with "mention" read as case-insensitive substring containment.  This
definition follows the claim's words, to be compared with the source's
`csvIsHeader`. -/

/-- Header test as worded by claim C8: the first four columns mention the
filter-type / frequency / Q / gain keywords (case-insensitively), or any of
the first four columns is non-numeric alphabetic text. -/
def claimHeaderC8 (header : List Str) : Bool :=
  (expected_headers.all fun h =>
    (header.take 4).any fun col => containsSub (lowerStr h) (lowerStr col))
  || (header.take 4).any pyIsAlpha

/-! ## Helper lemmas -/

theorem findSome?_cons_none {α β : Type} {f : α → Option β} {a : α} (l : List α)
    (h : f a = none) : (a :: l).findSome? f = l.findSome? f := by
  simp [List.findSome?, h]

theorem findSome?_cons_some {α β : Type} {f : α → Option β} {a : α} {b : β} (l : List α)
    (h : f a = some b) : (a :: l).findSome? f = some b := by
  simp [List.findSome?, h]

theorem findSome?_eq_none_of_all {α β : Type} {f : α → Option β} {l : List α}
    (h : ∀ x ∈ l, f x = none) : l.findSome? f = none := by
  induction l with
  | nil => rfl
  | cons a t ih =>
    rw [findSome?_cons_none t (h a (by simp))]
    exact ih fun x hx => h x (by simp [hx])

theorem findSome?_first_hit {α β : Type} {f : α → Option β} {xs : List α} {a : α}
    (ys : List α) (hxs : ∀ x ∈ xs, f x = none) {b : β} (ha : f a = some b) :
    (xs ++ a :: ys).findSome? f = some b := by
  induction xs with
  | nil => simpa using findSome?_cons_some ys ha
  | cons x t ih =>
    rw [List.cons_append, findSome?_cons_none _ (hxs x (by simp))]
    exact ih fun y hy => hxs y (by simp [hy])

theorem filterMap_skip_unit {α β : Type} {f : α → Option β} (xs ys : List α) {b : α}
    (h : f b = none) :
    (xs ++ b :: ys).filterMap f = (xs ++ ys).filterMap f := by
  simp [List.filterMap_append, List.filterMap_cons, h]

theorem filterMap_eq_filterMap_filter {α β : Type} (f : α → Option β) (p : α → Bool)
    (l : List α) (h : ∀ x, p x = false → f x = none) :
    l.filterMap f = (l.filter p).filterMap f := by
  induction l with
  | nil => rfl
  | cons a t ih =>
    by_cases hp : p a = true
    · simp [List.filter_cons, hp, List.filterMap_cons, ih]
    · have := h a (by simpa using hp)
      simp [List.filter_cons, hp, List.filterMap_cons, this, ih]

/-- The emitted eq list has one element per retained band. -/
theorem create_fiio_xml_eqList_length (bands : List Band) (style : Str) (p : Dec)
    (model : Str) :
    (create_fiio_xml bands style p model).eqList.length = min bands.length 10 := by
  unfold create_fiio_xml fiioDocBody
  by_cases hlen : bands.length > 10
  · simp [hlen, List.length_take]
    omega
  · simp [hlen]
    omega

/-- The i-th emitted eq element is the i-th source band with index i. -/
theorem create_fiio_xml_eqList_getD (bands : List Band) (style : Str) (p : Dec)
    (model : Str) (i : Nat) (hi : i < min bands.length 10) :
    (create_fiio_xml bands style p model).eqList.getD i default =
      ⟨natDigits i, bandParams (bands.getD i default)⟩ := by
  have hib : i < bands.length := by omega
  have hi10 : i < 10 := by omega
  unfold create_fiio_xml fiioDocBody
  by_cases hlen : bands.length > 10
  · simp only [hlen, if_pos, gt_iff_lt, if_true]
    rw [List.getD_eq_getElem?_getD, List.getElem?_map, List.getElem?_enum,
      List.getElem?_take, if_pos hi10, List.getD_eq_getElem?_getD,
      List.getElem?_eq_getElem hib]
    rfl
  · simp only [gt_iff_lt, hlen, if_false]
    rw [List.getD_eq_getElem?_getD, List.getElem?_map, List.getElem?_enum,
      List.getD_eq_getElem?_getD, List.getElem?_eq_getElem hib]
    rfl

/-! ## Claims -/

/-- C1: for every band list, style label, preamp value `p` and model name,
the serializer's gain policy (modelled from the spec, the boolean parameter
being absent from the snapshot under `src/`) emits the `masterGain` parameter
with value the default decimal string of `p` when `usePreampGain` is true,
and the literal string `"0"` when it is false. -/
theorem C1_masterGain_policy (bands : List Band) (style : Str) (p : Dec) (model : Str) :
    (create_fiio_xml_policy bands style p model true).masterGain = decStr p ∧
    (create_fiio_xml_policy bands style p model false).masterGain = "0".toList := by
  exact ⟨rfl, rfl⟩

/-- C2 as stated is false at the document consisting of the single
header-less numeric row `100,0.7,-3.2`: with exactly three columns the row is
dropped by the `len(row) < 4` guard before the numeric-fallback branch can
fire, so no Peaking band is produced at all (the whole parse fails with zero
bands, and the row processor returns nothing for that row). -/
theorem C2_counterexample :
    parse_eq_data "100,0.7,-3.2".toList = none ∧
    csvRowToBand ["100".toList, "0.7".toList, "-3.2".toList] = none := by
  exact ⟨by decide, by decide⟩

/-- C2 amended: the header-less numeric `freq,q,gain` reinterpretation
applies only to rows with at least FOUR columns (shorter rows, including
exactly-three-column ones, are skipped).  For such a row whose first column
is an unsigned decimal number not naming a filter type, the row yields a
Peaking band (type code "0") whose frequency, Q and gain come from columns
0, 1 and 2 respectively. -/
theorem C2_numeric_fallback (row : List Str) (h4 : 4 ≤ row.length)
    (hty : FILTER_TYPE_MAP (stripStr (row.getD 0 [])) = none)
    (hnum : pyIsDigit (removeFirstDot (stripStr (row.getD 0 []))) = true)
    (f g qv : Dec)
    (hf : parseFloatChars (stripStr (row.getD 0 [])) = some f)
    (hg : parseFloatChars (stripStr (row.getD 2 [])) = some g)
    (hq : parseFloatChars (stripStr (row.getD 1 [])) = some qv) :
    csvRowToBand row = some ⟨"0".toList, intStr (decTrunc f), decStr g, decStr qv⟩ := by
  have hlt : ¬ row.length < 4 := by omega
  have h3 : (3 : Nat) ≤ row.length := by omega
  unfold csvRowToBand
  rw [if_neg hlt]
  simp only [hty, hnum, decide_eq_true h3, Bool.and_self, eq_self_iff_true, if_true]
  unfold mkBand
  rw [hf, hg, hq]

/-- Witness for C2's amended theorem: the numeric row `100,0.7,-3.2` padded
to four columns yields the Peaking band freq 100, gain -3.2, Q 0.7. -/
theorem C2_numeric_fallback_witness :
    csvRowToBand ["100".toList, "0.7".toList, "-3.2".toList, []] =
      some ⟨"0".toList, "100".toList, "-3.2".toList, "0.7".toList⟩ := by
  have h := C2_numeric_fallback ["100".toList, "0.7".toList, "-3.2".toList, []]
    (by decide) (by decide) (by decide) ⟨100, 0⟩ ⟨-32, 1⟩ ⟨7, 1⟩
    (by decide) (by decide) (by decide)
  exact h.trans (by decide)

/-- C3: serialization emits `min n 10` eq elements — for more than 10 input
bands, exactly the first 10 in source order re-indexed 0 through 9; for at
most 10 bands, all of them with indices 0 through n-1.  Truncation is a
total-function branch of the serializer, never a failure. -/
theorem C3_truncation (bands : List Band) (style : Str) (p : Dec) (model : Str) :
    ((bands.length > 10 →
       (create_fiio_xml bands style p model).eqList.length = 10) ∧
     (bands.length ≤ 10 →
       (create_fiio_xml bands style p model).eqList.length = bands.length)) ∧
    (∀ i, i < (create_fiio_xml bands style p model).eqList.length →
      (create_fiio_xml bands style p model).eqList.getD i default =
        ⟨natDigits i, bandParams (bands.getD i default)⟩) := by
  have hlen := create_fiio_xml_eqList_length bands style p model
  refine ⟨⟨fun h => by omega, fun h => by omega⟩, fun i hi => ?_⟩
  exact create_fiio_xml_eqList_getD bands style p model i (by omega)

/-- Witness for C3: a 12-band list is emitted as exactly 10 elements, the
10th being the 10th source band with index "9". -/
theorem C3_truncation_witness :
    (create_fiio_xml (List.replicate 12 ⟨"0".toList, "100".toList, "1.0".toList, "1.0".toList⟩)
        [] ⟨0, 0⟩ []).eqList.length = 10 ∧
    (create_fiio_xml (List.replicate 12 ⟨"0".toList, "100".toList, "1.0".toList, "1.0".toList⟩)
        [] ⟨0, 0⟩ []).eqList.getD 9 default =
      ⟨"9".toList, bandParams ⟨"0".toList, "100".toList, "1.0".toList, "1.0".toList⟩⟩ := by
  have h := C3_truncation
    (List.replicate 12 ⟨"0".toList, "100".toList, "1.0".toList, "1.0".toList⟩) [] ⟨0, 0⟩ []
  have h10 := h.1.1 (by decide)
  refine ⟨h10, ?_⟩
  have h9 := h.2 9 (by rw [h10]; decide)
  exact h9.trans (by decide)

/-- C4: `parse_eq_data` returns the failure result exactly when the input is
empty or zero bands survive parsing; every successful parse carries a
non-empty band list. -/
theorem C4_zero_bands_failure (content : Str) :
    (parse_eq_data content = none ↔ (content = [] ∨ eqBandsOf content = [])) ∧
    (∀ bands preamp, parse_eq_data content = some (bands, preamp) → bands ≠ []) := by
  have hmain : parse_eq_data content = none ↔ (content = [] ∨ eqBandsOf content = []) := by
    unfold parse_eq_data
    by_cases hc : content.isEmpty
    · simp [hc, List.isEmpty_iff.mp hc]
    · have hc' : content ≠ [] := fun h => by simp [h] at hc
      by_cases hb : (eqBandsOf content).isEmpty
      · simp [hc, hb, List.isEmpty_iff.mp hb]
      · have hb' : eqBandsOf content ≠ [] := fun h => by simp [h] at hb
        simp [hc, hb, hc', hb']
  refine ⟨hmain, fun bands preamp hsome hnil => ?_⟩
  have hnone : parse_eq_data content = none := by
    subst hnil
    unfold parse_eq_data at hsome ⊢
    by_cases hc : content.isEmpty
    · simp [hc]
    · by_cases hb : (eqBandsOf content).isEmpty
      · simp [hc, hb]
      · simp [hc, hb] at hsome
        exact absurd hsome.1 fun h => by simp [h] at hb
  rw [hnone] at hsome
  exact Option.noConfusion hsome

/-- Witness for C4: a one-filter text document parses successfully and its
band list is non-empty. -/
theorem C4_witness :
    ([(⟨"0".toList, "105".toList, "-2.5".toList, "1.41".toList⟩ : Band)] : List Band) ≠ [] := by
  exact (C4_zero_bands_failure
      "Filter 1: ON PK Fc 105 Hz Gain -2.5 dB Q 1.41".toList).2
    [⟨"0".toList, "105".toList, "-2.5".toList, "1.41".toList⟩] ⟨0, 0⟩ (by decide)

/-- C5: malformed individual units never abort the batch: band extraction is
a per-unit `filterMap`, so dropping any unit that yields nothing leaves every
other unit's band in the result; and the offending units of the claim indeed
yield nothing (short rows; text lines whose type abbreviation is unknown). -/
theorem C5_malformed_units_skipped :
    (∀ (xs ys : List Str) (b : Str), parseTextLine b = none →
      textBands (xs ++ b :: ys) = textBands (xs ++ ys)) ∧
    (∀ (rs ss : List (List Str)) (r : List Str), csvRowToBand r = none →
      (rs ++ r :: ss).filterMap csvRowToBand = (rs ++ ss).filterMap csvRowToBand) ∧
    (∀ row : List Str, row.length < 4 → csvRowToBand row = none) ∧
    (∀ (line : Str) (abbr fS gS qS : Str),
      searchTextFilter line = some (abbr, fS, gS, qS) →
      TEXT_FORMAT_TYPE_MAP (upperStr abbr) = none → parseTextLine line = none) := by
  refine ⟨fun xs ys b h => ?_, fun rs ss r h => filterMap_skip_unit rs ss h,
    fun row h => ?_, fun line abbr fS gS qS hs ht => ?_⟩
  · unfold textBands
    exact filterMap_skip_unit xs ys h
  · unfold csvRowToBand
    rw [if_pos h]
  · unfold parseTextLine
    simp only [hs, ht]

/-- Witness for C5: inserting a line with the unknown abbreviation `XX` after
a well-formed filter line leaves exactly the well-formed line's band. -/
theorem C5_witness :
    textBands ["Filter 1: ON PK Fc 105 Hz Gain -2.5 dB Q 1.41".toList,
      "Filter 2: ON XX Fc 100 Hz Gain -2.5 dB Q 1.0".toList] =
      textBands ["Filter 1: ON PK Fc 105 Hz Gain -2.5 dB Q 1.41".toList] := by
  have h := C5_malformed_units_skipped.1
    ["Filter 1: ON PK Fc 105 Hz Gain -2.5 dB Q 1.41".toList] []
    "Filter 2: ON XX Fc 100 Hz Gain -2.5 dB Q 1.0".toList (by decide)
  simpa using h

/-- C6: format detection is a single whole-document decision: if some line
matches the text-filter grammar, the whole document is parsed in text format
and only matching lines contribute bands (CSV-like rows are ignored); if no
line matches, the document is parsed as CSV. -/
theorem C6_whole_document_format (content : Str) :
    (isTextFormat (splitlines (stripStr content)) = true →
      eqBandsOf content =
        ((splitlines (stripStr content)).filter
          fun l => (searchTextFilter l).isSome).filterMap parseTextLine) ∧
    (isTextFormat (splitlines (stripStr content)) = false →
      eqBandsOf content = csvBands (csvRows content)) := by
  constructor
  · intro h
    simp only [eqBandsOf]
    rw [if_pos h]
    unfold textBands
    refine filterMap_eq_filterMap_filter _ _ _ fun l hl => ?_
    unfold parseTextLine
    cases hsearch : searchTextFilter l with
    | none => rfl
    | some g => simp [hsearch] at hl
  · intro h
    simp only [eqBandsOf]
    rw [if_neg (by simp [h])]

/-- Witness for C6: a document holding both a text filter line and a
CSV-like row is classified as text format: only the matching line's band is
extracted. -/
theorem C6_witness :
    eqBandsOf "Filter 1: ON PK Fc 105 Hz Gain -2.5 dB Q 1.41\nPeaking,100,1.41,-2.5".toList =
      ((splitlines (stripStr
          "Filter 1: ON PK Fc 105 Hz Gain -2.5 dB Q 1.41\nPeaking,100,1.41,-2.5".toList)).filter
        fun l => (searchTextFilter l).isSome).filterMap parseTextLine := by
  exact (C6_whole_document_format _).1 (by decide)

/-- C7: preamp resolution: a successful parse returns the preamp computed by
the line scan; the scan returns the value of the first line containing
`preamp:` (case-insensitively) whose first post-colon token parses as a
float, lines that match but fail to parse being skipped; when no line yields
a value the preamp is exactly 0.0; and a line without the token contributes
nothing. -/
theorem C7_preamp_resolution (content : Str) :
    (∀ bands p, parse_eq_data content = some (bands, p) →
      p = preampOfLines (splitlines (stripStr content))) ∧
    (∀ (xs : List Str) (l : Str) (ys : List Str) (v : Dec),
      splitlines (stripStr content) = xs ++ l :: ys →
      (∀ x ∈ xs, preampOfLine x = none) → preampOfLine l = some v →
      preampOfLines (splitlines (stripStr content)) = v) ∧
    ((∀ l ∈ splitlines (stripStr content), preampOfLine l = none) →
      (preampOfLines (splitlines (stripStr content))).val = 0) ∧
    (∀ line : Str, containsSub "preamp:".toList (lowerStr line) = false →
      preampOfLine line = none) := by
  refine ⟨?_, ?_, ?_, ?_⟩
  · intro bands p h
    unfold parse_eq_data at h
    by_cases hc : content.isEmpty
    · simp [hc] at h
    · by_cases hb : (eqBandsOf content).isEmpty
      · simp [hc, hb] at h
      · simp [hc, hb] at h
        exact h.2.symm
  · intro xs l ys v hsplit hxs hl
    unfold preampOfLines
    rw [hsplit, findSome?_first_hit ys hxs hl]
    rfl
  · intro h
    unfold preampOfLines
    rw [findSome?_eq_none_of_all h]
    simp [Dec.val]
  · intro line h
    unfold preampOfLine
    have h' : ¬ containsSub "preamp:".toList (lowerStr line) = true := by
      rw [h]
      exact Bool.false_ne_true
    rw [if_neg h']

/-- Witness for C7: in a document whose first `preamp:` line fails to parse,
the second, parsable `preamp:` line wins. -/
theorem C7_witness :
    preampOfLines (splitlines (stripStr
      "x: preamp: 3\nPREAMP: -6.0 dB\nFilter 1: ON PK Fc 105 Hz Gain -2.5 dB Q 1.41".toList)) =
      ⟨-60, 1⟩ := by
  exact (C7_preamp_resolution _).2.1 ["x: preamp: 3".toList] "PREAMP: -6.0 dB".toList
    ["Filter 1: ON PK Fc 105 Hz Gain -2.5 dB Q 1.41".toList] ⟨-60, 1⟩
    (by decide) (by decide) (by decide)

/-- C8 as stated is false: the source's keyword test looks for the four
keywords among ALL of the first row's cells (as whole stripped cell values),
not only its first four columns.  The row
`1,2,3,4,Filter Type,Freq,Q,Gain` is therefore excluded as a header by the
code although its first four columns neither mention any keyword nor are
alphabetic — under the claim it would be a data row, and as a data row it
would yield a band (its first column is numeric), yet the parse output
contains only the band of the second row. -/
theorem C8_counterexample :
    claimHeaderC8 ["1".toList, "2".toList, "3".toList, "4".toList,
      "Filter Type".toList, "Freq".toList, "Q".toList, "Gain".toList] = false ∧
    csvIsHeader ["1".toList, "2".toList, "3".toList, "4".toList,
      "Filter Type".toList, "Freq".toList, "Q".toList, "Gain".toList] = true ∧
    (csvRowToBand ["1".toList, "2".toList, "3".toList, "4".toList,
      "Filter Type".toList, "Freq".toList, "Q".toList, "Gain".toList]).isSome = true ∧
    parse_eq_data "1,2,3,4,Filter Type,Freq,Q,Gain\nPeaking,100,1.41,-2.5".toList =
      some ([⟨"0".toList, "100".toList, "-2.5".toList, "1.41".toList⟩], ⟨0, 0⟩) := by
  exact ⟨by decide, by decide, by decide, by decide⟩

/-- C8 amended: for a CSV-format document, the first row is excluded from
band data iff all four keywords occur case-insensitively as whole stripped
cell values among ALL its cells, or any of its first four cells is purely
alphabetic text; otherwise the reader is rewound and the first row is parsed
as band data. -/
theorem C8_header_exclusion (content : Str) (hdr : List Str) (rest : List (List Str))
    (hfmt : isTextFormat (splitlines (stripStr content)) = false)
    (hrows : csvRows content = hdr :: rest) :
    eqBandsOf content =
      if (expected_headers.all fun h =>
            (hdr.map fun eh => lowerStr (stripStr eh)).contains (lowerStr (stripStr h)))
          || (hdr.take 4).any pyIsAlpha
      then rest.filterMap csvRowToBand
      else (hdr :: rest).filterMap csvRowToBand := by
  simp only [eqBandsOf]
  rw [if_neg (by simp [hfmt]), hrows]
  rfl

/-- Witness for C8's amended theorem: a document with a recognizable header
row has that row excluded, the remaining row parsed as band data. -/
theorem C8_header_exclusion_witness :
    eqBandsOf "Filter Type,Freq,Q,Gain\nPeaking,100,1.41,-2.5".toList =
      if (expected_headers.all fun h =>
            (["Filter Type".toList, "Freq".toList, "Q".toList, "Gain".toList].map
              fun eh => lowerStr (stripStr eh)).contains (lowerStr (stripStr h)))
          || (["Filter Type".toList, "Freq".toList, "Q".toList, "Gain".toList].take 4).any
              pyIsAlpha
      then [["Peaking".toList, "100".toList, "1.41".toList, "-2.5".toList]].filterMap
        csvRowToBand
      else [["Filter Type".toList, "Freq".toList, "Q".toList, "Gain".toList],
        ["Peaking".toList, "100".toList, "1.41".toList, "-2.5".toList]].filterMap
        csvRowToBand := by
  exact C8_header_exclusion _ _ _ (by decide) (by decide)

/-- C9: round-trip: for a band list of length at most 10, reading back the
four parameters named type, freq, gain and q from the i-th serialized eq
element yields exactly the i-th band's type code, frequency, gain and Q
fields (equal as strings, hence numerically equal). -/
theorem C9_roundtrip (bands : List Band) (style : Str) (p : Dec) (model : Str)
    (hlen : bands.length ≤ 10) (i : Nat) (hi : i < bands.length) :
    readParam ((create_fiio_xml bands style p model).eqList.getD i default) "type".toList =
      some (bands.getD i default).type ∧
    readParam ((create_fiio_xml bands style p model).eqList.getD i default) "freq".toList =
      some (bands.getD i default).freq ∧
    readParam ((create_fiio_xml bands style p model).eqList.getD i default) "gain".toList =
      some (bands.getD i default).gain ∧
    readParam ((create_fiio_xml bands style p model).eqList.getD i default) "q".toList =
      some (bands.getD i default).q := by
  have hmin : i < min bands.length 10 := by omega
  rw [create_fiio_xml_eqList_getD bands style p model i hmin]
  refine ⟨?_, ?_, ?_, ?_⟩ <;> simp [readParam, bandParams, List.find?]

/-- Witness for C9: the single serialized band's freq parameter reads back
as the band's freq field. -/
theorem C9_witness :
    readParam ((create_fiio_xml [⟨"0".toList, "105".toList, "-2.5".toList, "1.41".toList⟩]
        [] ⟨0, 0⟩ []).eqList.getD 0 default) "freq".toList = some "105".toList := by
  have h := C9_roundtrip [⟨"0".toList, "105".toList, "-2.5".toList, "1.41".toList⟩]
    [] ⟨0, 0⟩ [] (by decide) 0 (by decide)
  exact h.2.1.trans (by decide)

theorem PyHeap.read_alloc_old (h : PyHeap) (v : List Band) {a : Nat}
    (ha : a < h.lists.length) : (h.alloc v).1.read a = h.read a := by
  unfold PyHeap.alloc PyHeap.read
  exact List.getD_append _ _ _ _ ha

theorem PyHeap.read_alloc_new (h : PyHeap) (v : List Band) :
    (h.alloc v).1.read (h.alloc v).2 = v := by
  unfold PyHeap.alloc PyHeap.read
  rw [List.getD_eq_getElem?_getD, List.getElem?_append_right (le_refl _)]
  simp

/-- C10: serialization does not mutate its input: in the heap model of the
call (slicing allocates a fresh list object; the local name is rebound), the
caller's list — and hence every band record in it — is unchanged after the
call, also when the list is longer than 10 bands; and the document produced
is that of the pure serializer on the caller's list value. -/
theorem C10_no_mutation (h : PyHeap) (a : Nat) (style : Str) (p : Dec) (model : Str)
    (ha : a < h.lists.length) :
    (create_fiio_xml_heap h a style p model).1.read a = h.read a ∧
    (create_fiio_xml_heap h a style p model).2 =
      create_fiio_xml (h.read a) style p model := by
  simp only [create_fiio_xml_heap, create_fiio_xml]
  split_ifs with hlen
  · constructor
    · exact PyHeap.read_alloc_old h _ ha
    · rw [PyHeap.read_alloc_new]
  · exact ⟨rfl, rfl⟩

/-- Witness for C10: a heap holding one 12-band list: after the call the
caller's list is still the full 12-band list. -/
theorem C10_witness :
    (create_fiio_xml_heap
        ⟨[List.replicate 12 ⟨"0".toList, "100".toList, "1.0".toList, "1.0".toList⟩]⟩
        0 [] ⟨0, 0⟩ []).1.read 0 =
      List.replicate 12 ⟨"0".toList, "100".toList, "1.0".toList, "1.0".toList⟩ := by
  have h := C10_no_mutation
    ⟨[List.replicate 12 ⟨"0".toList, "100".toList, "1.0".toList, "1.0".toList⟩]⟩
    0 [] ⟨0, 0⟩ [] (by decide)
  exact h.1.trans (by decide)

end AutoEqFiio
